import Mathlib

/-!
Shallow embedding of the profile-matching and archive-decomposition core of
the steps-xcode-archive repository.

Part 1 models the `localcodesignasset` package (`findProfile` and its filter
and entitlement-comparison helpers).  Part 2 models the vendored
`xcarchive/ios.go` archive decomposition.

Modelling conventions:
- Go `map[string]interface{}` values (entitlements, plist data) are modelled
  as association lists `List (String × PValue)` with `PValue` covering the
  heterogeneous value types the spec names (boolean, string, string sequence);
  a `nil` Go map lookup is `Option.none`.
- `reflect.DeepEqual` on such values is decidable equality.
- `time.Now()` is an explicit `now : Int` parameter; instants are measured in
  days, so `time.AddDate(0, 0, d)` is `now + d`.
- The external collaborator `autocodesign.FindMissingContainers` (from the
  go-xcode library, not part of the sources) is passed as an explicit function
  parameter `fmc`; a concrete model of it, written from the spec, is given as
  `FindMissingContainers`.
-/

namespace LocalCodesignAsset

/-- Heterogeneous entitlement / plist value (boolean, string, or string
sequence), as described in the spec's data model. -/
inductive PValue where
  | boolV (b : Bool)
  | strV (s : String)
  | listV (l : List String)
deriving DecidableEq, Repr

/-- `autocodesign.Entitlements` / `plistutil.PlistData`: a string-keyed map
with heterogeneous values, modelled as an association list. -/
abbrev Entitlements := List (String × PValue)

/-- Go map lookup `m[key]`: the value of the entry with the given key, or
`none` (Go `nil`) when the key is absent. -/
def entLookup (e : Entitlements) (k : String) : Option PValue :=
  (e.find? (fun p => decide (p.1 = k))).map (fun p => p.2)

/-- A developer certificate as referenced by the matcher (only its serial is
consulted). -/
structure Certificate where
  serial : String
deriving DecidableEq, Repr

/-- `profileutil.ProvisioningProfileInfoModel`: the fields of the external
profile model that the matcher consults.  `IsXcodeManaged` (a method of the
external `profileutil` library) is carried as the management-origin flag the
spec describes. -/
structure ProvisioningProfileInfoModel where
  bundleID : String
  exportType : String
  profileType : String
  expirationDate : Int
  teamID : String
  developerCertificates : List Certificate
  provisionedDevices : List String
  provisionsAllDevices : Bool
  isXcodeManaged : Bool
  entitlements : Entitlements
deriving DecidableEq, Repr

/-- `autocodesign.Platform` is a string type in Go. -/
abbrev Platform := String

/-- `autocodesign.DistributionType` is a string type in Go. -/
abbrev DistributionType := String

/-- The distinguished iCloud container entitlement key
(`autocodesign.ICloudIdentifiersEntitlementKey`). -/
def ICloudIdentifiersEntitlementKey : String :=
  "com.apple.developer.icloud-container-identifiers"

/-- Type of the external container-resolution collaborator
`autocodesign.FindMissingContainers`: given app and profile entitlements it
returns the required-but-missing iCloud containers, or an error. -/
abbrev MissingContainersFn := Entitlements → Entitlements → Except String (List String)

/-- Modelled from the spec: `autocodesign.FindMissingContainers` (external
collaborator, not among the sources) computes the iCloud containers required
by the app but absent from the profile; a malformed (non string-sequence)
container entitlement value is an error. -/
def FindMissingContainers (appEntitlements profileEntitlements : Entitlements) :
    Except String (List String) :=
  match entLookup appEntitlements ICloudIdentifiersEntitlementKey with
  | none => .ok []
  | some (.listV appContainers) =>
    match entLookup profileEntitlements ICloudIdentifiersEntitlementKey with
    | none => .ok appContainers
    | some (.listV profileContainers) =>
      .ok (appContainers.filter (fun c => decide (¬ c ∈ profileContainers)))
    | some _ => .error "unexpected type of profile iCloud container entitlement"
  | some _ => .error "unexpected type of app iCloud container entitlement"

/-- `isActive`: the profile is valid for at least `minProfileDaysValid` more
days.  `time.Now()` is the explicit `now`; `AddDate(0, 0, d)` is `now + d`
(instants in days). -/
def isActive (now : Int) (profile : ProvisioningProfileInfoModel)
    (minProfileDaysValid : Int) : Bool :=
  let expiration := if minProfileDaysValid > 0 then now + minProfileDaysValid else now
  decide (expiration < profile.expirationDate)

/-- `hasMatchingDistributionType`: the profile's export type equals the
requested distribution type. -/
def hasMatchingDistributionType (profile : ProvisioningProfileInfoModel)
    (distributionType : DistributionType) : Bool :=
  decide (profile.exportType = distributionType)

/-- `hasMatchingBundleID`: exact equality of bundle identifiers. -/
def hasMatchingBundleID (profile : ProvisioningProfileInfoModel)
    (bundleID : String) : Bool :=
  decide (profile.bundleID = bundleID)

/-- Go `strings.ToLower` (standard-library collaborator), modelled as
character-wise basic-latin lowering. -/
def goToLower (s : String) : String :=
  String.mk (s.data.map Char.toLower)

/-- `hasMatchingPlatform`: the lower-cased requested platform equals the
profile's type. -/
def hasMatchingPlatform (profile : ProvisioningProfileInfoModel)
    (platform : Platform) : Bool :=
  decide (goToLower platform = profile.profileType)

/-- `hasMatchingLocalCertificates`: every required certificate serial appears
among the profile's certificate serials (`sliceutil.IsStringInSlice` is
membership). -/
def hasMatchingLocalCertificates (profile : ProvisioningProfileInfoModel)
    (localCertificateSerials : List String) : Bool :=
  let profileCertificateSerials := profile.developerCertificates.map (fun c => c.serial)
  localCertificateSerials.all (fun serial => decide (serial ∈ profileCertificateSerials))

/-- `provisionsDevices`: vacuous when the profile provisions all devices or no
devices are required; otherwise every required UDID must appear in the
profile's provisioned-device list (the `contains` helper of the package,
membership of a string in a slice). -/
def provisionsDevices (profile : ProvisioningProfileInfoModel)
    (deviceUDIDs : List String) : Bool :=
  if profile.provisionsAllDevices || deviceUDIDs.isEmpty then
    true
  else if profile.provisionedDevices.isEmpty then
    false
  else
    deviceUDIDs.all (fun deviceUDID => decide (deviceUDID ∈ profile.provisionedDevices))

/-- Loop body of `containsAllAppEntitlements` for one required key/value pair:
the iCloud key is decided by the external missing-container computation, any
other key by deep equality of the profile's value with the required value. -/
def containsEntitlement (fmc : MissingContainersFn)
    (appEntitlements profileEntitlements : Entitlements)
    (kv : String × PValue) : Bool :=
  let profileEntitlementValue := entLookup profileEntitlements kv.1
  if kv.1 = ICloudIdentifiersEntitlementKey then
    match fmc appEntitlements profileEntitlements with
    | .error _ => false
    | .ok missingContainers => missingContainers.isEmpty
  else
    decide (profileEntitlementValue = some kv.2)

/-- `containsAllAppEntitlements` (exact mode): every required key passes
`containsEntitlement`.  The Go loop returns `false` on the first failing key
and `true` when the loop completes (`hasMissingEntitlement` is never set). -/
def containsAllAppEntitlements (fmc : MissingContainersFn)
    (profile : ProvisioningProfileInfoModel)
    (appEntitlements : Entitlements) : Bool :=
  appEntitlements.all (containsEntitlement fmc appEntitlements profile.entitlements)

/-- Loop body of `profileSupportsAppEntitlements` for one required key/value
pair: iCloud handling as in exact mode; otherwise deep-equal values pass, an
absent profile key fails, differing booleans fail only for a required `true`
against a profile `false`, a required boolean against a non-boolean profile
value passes silently, and differing non-boolean values fail (the final Go
branch re-checks deep equality before failing). -/
def supportsEntitlement (fmc : MissingContainersFn)
    (appEntitlements profileEntitlements : Entitlements)
    (kv : String × PValue) : Bool :=
  let profileEntitlementValue := entLookup profileEntitlements kv.1
  if kv.1 = ICloudIdentifiersEntitlementKey then
    match fmc appEntitlements profileEntitlements with
    | .error _ => false
    | .ok missingContainers => missingContainers.isEmpty
  else if profileEntitlementValue = some kv.2 then
    true
  else
    match profileEntitlementValue with
    | none => false
    | some profileValue =>
      match kv.2 with
      | .boolV appBool =>
        match profileValue with
        | .boolV profileBool => !(appBool && !profileBool)
        | _ => true
      | _ => decide (profileEntitlementValue = some kv.2)

/-- `profileSupportsAppEntitlements` (superset mode): every required key
passes `supportsEntitlement`. -/
def profileSupportsAppEntitlements (fmc : MissingContainersFn)
    (profile : ProvisioningProfileInfoModel)
    (appEntitlements : Entitlements) : Bool :=
  appEntitlements.all (supportsEntitlement fmc appEntitlements profile.entitlements)

/-- `isProfileMatching` (pass-1 predicate): the Go early-return chain rendered
as short-circuit conjunction, ending with the tool-managed exclusion. -/
def isProfileMatching (now : Int) (fmc : MissingContainersFn)
    (profile : ProvisioningProfileInfoModel) (platform : Platform)
    (distributionType : DistributionType) (bundleID : String)
    (entitlements : Entitlements) (minProfileDaysValid : Int)
    (certSerials : List String) (deviceUDIDs : List String) : Bool :=
  isActive now profile minProfileDaysValid &&
  hasMatchingDistributionType profile distributionType &&
  hasMatchingBundleID profile bundleID &&
  hasMatchingPlatform profile platform &&
  hasMatchingLocalCertificates profile certSerials &&
  containsAllAppEntitlements fmc profile entitlements &&
  provisionsDevices profile deviceUDIDs &&
  !profile.isXcodeManaged

/-- `isProfileMatchingWithSuperset` (pass-2 predicate): same filter chain with
the superset entitlement check and without the tool-managed exclusion. -/
def isProfileMatchingWithSuperset (now : Int) (fmc : MissingContainersFn)
    (profile : ProvisioningProfileInfoModel) (platform : Platform)
    (distributionType : DistributionType) (bundleID : String)
    (entitlements : Entitlements) (minProfileDaysValid : Int)
    (certSerials : List String) (deviceUDIDs : List String) : Bool :=
  isActive now profile minProfileDaysValid &&
  hasMatchingDistributionType profile distributionType &&
  hasMatchingBundleID profile bundleID &&
  hasMatchingPlatform profile platform &&
  hasMatchingLocalCertificates profile certSerials &&
  profileSupportsAppEntitlements fmc profile entitlements &&
  provisionsDevices profile deviceUDIDs

/-- `findProfile`: scan the local profiles with the exact predicate (a Go
`for` loop returning the first match), then, only if that pass found nothing,
scan again with the superset predicate; `none` when neither pass matches. -/
def findProfile (now : Int) (fmc : MissingContainersFn)
    (localProfiles : List ProvisioningProfileInfoModel) (platform : Platform)
    (distributionType : DistributionType) (bundleID : String)
    (entitlements : Entitlements) (minProfileDaysValid : Int)
    (certSerials : List String) (deviceUDIDs : List String) :
    Option ProvisioningProfileInfoModel :=
  match localProfiles.find? (fun profile =>
      isProfileMatching now fmc profile platform distributionType bundleID
        entitlements minProfileDaysValid certSerials deviceUDIDs) with
  | some profile => some profile
  | none =>
    localProfiles.find? (fun profile =>
      isProfileMatchingWithSuperset now fmc profile platform distributionType bundleID
        entitlements minProfileDaysValid certSerials deviceUDIDs)

/-- `a` is the first element of `l` (in input order) satisfying the Boolean
predicate `q`: it occurs at some index `i`, satisfies `q`, and every element
before index `i` fails `q`. -/
def firstSatisfying {α : Type} (q : α → Bool) (l : List α) (a : α) : Prop :=
  ∃ i, ∃ h : i < l.length, l.get ⟨i, h⟩ = a ∧ q a = true ∧ ∀ b ∈ l.take i, q b = false

theorem find?_iff_firstSatisfying {α : Type} (q : α → Bool) (l : List α) (a : α) :
    l.find? q = some a ↔ firstSatisfying q l a := by
  induction l with
  | nil => simp [firstSatisfying]
  | cons x xs ih =>
    by_cases hq : q x = true
    · rw [List.find?_cons_of_pos _ hq]
      constructor
      · intro h
        have hxa : x = a := by injection h
        refine ⟨0, by simp, by simpa using hxa, hxa ▸ hq, ?_⟩
        intro b hb
        simp at hb
      · rintro ⟨i, h, hget, hqa, hfirst⟩
        cases i with
        | zero =>
          have : x = a := by simpa using hget
          rw [this]
        | succ j =>
          exfalso
          have hx : x ∈ (x :: xs).take (j + 1) := by
            rw [List.take_succ_cons]
            exact List.mem_cons_self x _
          have hfalse := hfirst x hx
          rw [hfalse] at hq
          simp at hq
    · rw [List.find?_cons_of_neg _ hq, ih]
      have hqf : q x = false := by simpa using hq
      constructor
      · rintro ⟨i, h, hget, hqa, hfirst⟩
        refine ⟨i + 1, by simp [Nat.succ_lt_succ h], by simpa using hget, hqa, ?_⟩
        intro b hb
        rw [List.take_succ_cons] at hb
        rcases List.mem_cons.mp hb with hb | hb
        · rw [hb]
          exact hqf
        · exact hfirst b hb
      · rintro ⟨i, h, hget, hqa, hfirst⟩
        cases i with
        | zero =>
          exfalso
          have hxa : x = a := by simpa using hget
          rw [hxa] at hqf
          rw [hqf] at hqa
          simp at hqa
        | succ j =>
          refine ⟨j, by simpa using h, by simpa using hget, hqa, ?_⟩
          intro b hb
          refine hfirst b ?_
          rw [List.take_succ_cons]
          exact List.mem_cons_of_mem x hb

theorem containsEntitlement_implies_supports (fmc : MissingContainersFn)
    (appEntitlements profileEntitlements : Entitlements) (kv : String × PValue)
    (h : containsEntitlement fmc appEntitlements profileEntitlements kv = true) :
    supportsEntitlement fmc appEntitlements profileEntitlements kv = true := by
  unfold containsEntitlement at h
  unfold supportsEntitlement
  by_cases hk : kv.1 = ICloudIdentifiersEntitlementKey
  · rw [if_pos hk] at h
    rw [if_pos hk]
    exact h
  · rw [if_neg hk] at h
    rw [if_neg hk]
    rw [decide_eq_true_iff] at h
    rw [if_pos h]

theorem containsAll_implies_supportsAll (fmc : MissingContainersFn)
    (profile : ProvisioningProfileInfoModel) (appEntitlements : Entitlements)
    (h : containsAllAppEntitlements fmc profile appEntitlements = true) :
    profileSupportsAppEntitlements fmc profile appEntitlements = true := by
  unfold containsAllAppEntitlements at h
  unfold profileSupportsAppEntitlements
  rw [List.all_eq_true] at h ⊢
  intro kv hkv
  exact containsEntitlement_implies_supports fmc appEntitlements profile.entitlements kv (h kv hkv)

theorem isProfileMatching_implies_superset (now : Int) (fmc : MissingContainersFn)
    (profile : ProvisioningProfileInfoModel) (platform : Platform)
    (distributionType : DistributionType) (bundleID : String)
    (entitlements : Entitlements) (minProfileDaysValid : Int)
    (certSerials : List String) (deviceUDIDs : List String)
    (h : isProfileMatching now fmc profile platform distributionType bundleID
      entitlements minProfileDaysValid certSerials deviceUDIDs = true) :
    isProfileMatchingWithSuperset now fmc profile platform distributionType bundleID
      entitlements minProfileDaysValid certSerials deviceUDIDs = true := by
  unfold isProfileMatching at h
  unfold isProfileMatchingWithSuperset
  simp only [Bool.and_eq_true] at h ⊢
  obtain ⟨⟨⟨⟨⟨⟨⟨h1, h2⟩, h3⟩, h4⟩, h5⟩, h6⟩, h7⟩, h8⟩ := h
  exact ⟨⟨⟨⟨⟨⟨h1, h2⟩, h3⟩, h4⟩, h5⟩,
    containsAll_implies_supportsAll fmc profile entitlements h6⟩, h7⟩

theorem isActive_of_matching (now : Int) (fmc : MissingContainersFn)
    (profile : ProvisioningProfileInfoModel) (platform : Platform)
    (distributionType : DistributionType) (bundleID : String)
    (entitlements : Entitlements) (minProfileDaysValid : Int)
    (certSerials : List String) (deviceUDIDs : List String)
    (h : isProfileMatching now fmc profile platform distributionType bundleID
      entitlements minProfileDaysValid certSerials deviceUDIDs = true) :
    isActive now profile minProfileDaysValid = true := by
  unfold isProfileMatching at h
  simp only [Bool.and_eq_true] at h
  exact h.1.1.1.1.1.1.1

theorem isActive_of_supersetMatching (now : Int) (fmc : MissingContainersFn)
    (profile : ProvisioningProfileInfoModel) (platform : Platform)
    (distributionType : DistributionType) (bundleID : String)
    (entitlements : Entitlements) (minProfileDaysValid : Int)
    (certSerials : List String) (deviceUDIDs : List String)
    (h : isProfileMatchingWithSuperset now fmc profile platform distributionType bundleID
      entitlements minProfileDaysValid certSerials deviceUDIDs = true) :
    isActive now profile minProfileDaysValid = true := by
  unfold isProfileMatchingWithSuperset at h
  simp only [Bool.and_eq_true] at h
  exact h.1.1.1.1.1.1

theorem findProfile_some_implies_pred (now : Int) (fmc : MissingContainersFn)
    (localProfiles : List ProvisioningProfileInfoModel) (platform : Platform)
    (distributionType : DistributionType) (bundleID : String)
    (entitlements : Entitlements) (minProfileDaysValid : Int)
    (certSerials : List String) (deviceUDIDs : List String)
    (p : ProvisioningProfileInfoModel)
    (h : findProfile now fmc localProfiles platform distributionType bundleID
      entitlements minProfileDaysValid certSerials deviceUDIDs = some p) :
    isProfileMatching now fmc p platform distributionType bundleID
      entitlements minProfileDaysValid certSerials deviceUDIDs = true ∨
    isProfileMatchingWithSuperset now fmc p platform distributionType bundleID
      entitlements minProfileDaysValid certSerials deviceUDIDs = true := by
  unfold findProfile at h
  split at h
  next q heq =>
    have hq := List.find?_some heq
    have hqp : q = p := by injection h
    rw [hqp] at hq
    exact Or.inl hq
  next heq =>
    have hq := List.find?_some (p := fun profile =>
      isProfileMatchingWithSuperset now fmc profile platform distributionType bundleID
        entitlements minProfileDaysValid certSerials deviceUDIDs) (a := p) h
    exact Or.inr hq

/-- Sample profile used by witnesses: bundle `b`, app-store export, valid up
to day 100, no device restriction, not tool-managed, empty entitlements. -/
def sampleProfile : ProvisioningProfileInfoModel :=
  { bundleID := "b"
    exportType := "app-store"
    profileType := "ios"
    expirationDate := 100
    teamID := "T"
    developerCertificates := []
    provisionedDevices := []
    provisionsAllDevices := false
    isXcodeManaged := false
    entitlements := [] }

/-- Sample profile used by witnesses: provisions two explicit devices. -/
def sampleDeviceProfile : ProvisioningProfileInfoModel :=
  { sampleProfile with provisionedDevices := ["u1", "u2"] }

/-- C3: if the exact-match predicate `isProfileMatching` accepts a profile
then the superset predicate `isProfileMatchingWithSuperset` also accepts it,
for every profile, platform, distribution type, bundle ID, entitlements map,
minimum-validity window, certificate-serial list and device-UDID list; in
particular `containsAllAppEntitlements` implies
`profileSupportsAppEntitlements`. -/
theorem exact_match_implies_superset_match (now : Int) (fmc : MissingContainersFn)
    (profile : ProvisioningProfileInfoModel) (platform : Platform)
    (distributionType : DistributionType) (bundleID : String)
    (entitlements : Entitlements) (minProfileDaysValid : Int)
    (certSerials : List String) (deviceUDIDs : List String) :
    (containsAllAppEntitlements fmc profile entitlements = true →
      profileSupportsAppEntitlements fmc profile entitlements = true) ∧
    (isProfileMatching now fmc profile platform distributionType bundleID
        entitlements minProfileDaysValid certSerials deviceUDIDs = true →
      isProfileMatchingWithSuperset now fmc profile platform distributionType bundleID
        entitlements minProfileDaysValid certSerials deviceUDIDs = true) :=
  ⟨containsAll_implies_supportsAll fmc profile entitlements,
   isProfileMatching_implies_superset now fmc profile platform distributionType bundleID
     entitlements minProfileDaysValid certSerials deviceUDIDs⟩

theorem exact_match_implies_superset_match_witness :
    isProfileMatchingWithSuperset 0 FindMissingContainers sampleProfile "ios" "app-store" "b"
      [] 7 [] [] = true :=
  (exact_match_implies_superset_match 0 FindMissingContainers sampleProfile "ios" "app-store"
    "b" [] 7 [] []).2 (by decide)

/-- C4: `isActive` holds, for a positive window, exactly when `now` plus the
window (in days) is strictly before the profile's expiration instant, and for
a non-positive window exactly when `now` is strictly before expiration; and a
profile with `isActive` false is never returned by either pass of
`findProfile`. -/
theorem isActive_spec_and_inactive_never_returned (now : Int)
    (profile : ProvisioningProfileInfoModel) (minProfileDaysValid : Int)
    (fmc : MissingContainersFn) (localProfiles : List ProvisioningProfileInfoModel)
    (platform : Platform) (distributionType : DistributionType) (bundleID : String)
    (entitlements : Entitlements) (certSerials : List String) (deviceUDIDs : List String) :
    (0 < minProfileDaysValid →
      (isActive now profile minProfileDaysValid = true ↔
        now + minProfileDaysValid < profile.expirationDate)) ∧
    (minProfileDaysValid ≤ 0 →
      (isActive now profile minProfileDaysValid = true ↔
        now < profile.expirationDate)) ∧
    (∀ p, findProfile now fmc localProfiles platform distributionType bundleID
        entitlements minProfileDaysValid certSerials deviceUDIDs = some p →
      isActive now p minProfileDaysValid = true) := by
  refine ⟨?_, ?_, ?_⟩
  · intro hpos
    unfold isActive
    rw [if_pos hpos]
    exact decide_eq_true_iff
  · intro hnonpos
    unfold isActive
    rw [if_neg (by omega)]
    exact decide_eq_true_iff
  · intro p hp
    rcases findProfile_some_implies_pred now fmc localProfiles platform distributionType
        bundleID entitlements minProfileDaysValid certSerials deviceUDIDs p hp with h | h
    · exact isActive_of_matching now fmc p platform distributionType bundleID
        entitlements minProfileDaysValid certSerials deviceUDIDs h
    · exact isActive_of_supersetMatching now fmc p platform distributionType bundleID
        entitlements minProfileDaysValid certSerials deviceUDIDs h

theorem isActive_spec_witness :
    isActive 0 sampleProfile 7 = true ∧ isActive 0 sampleProfile (-1) = true ∧
      isActive 0 sampleProfile 7 = true :=
  ⟨((isActive_spec_and_inactive_never_returned 0 sampleProfile 7 FindMissingContainers
      [sampleProfile] "ios" "app-store" "b" [] [] []).1 (by decide)).mpr (by decide),
   ((isActive_spec_and_inactive_never_returned 0 sampleProfile (-1) FindMissingContainers
      [sampleProfile] "ios" "app-store" "b" [] [] []).2.1 (by decide)).mpr (by decide),
   (isActive_spec_and_inactive_never_returned 0 sampleProfile 7 FindMissingContainers
      [sampleProfile] "ios" "app-store" "b" [] [] []).2.2 sampleProfile (by decide)⟩

/-- C7: `provisionsDevices` is true whenever the profile provisions all
devices or no device UDIDs are required; otherwise it is true exactly when
every required UDID appears in the profile's provisioned-device list, and in
particular an empty provisioned-device list with a non-empty requirement
yields false. -/
theorem provisionsDevices_spec (profile : ProvisioningProfileInfoModel)
    (deviceUDIDs : List String) :
    ((profile.provisionsAllDevices = true ∨ deviceUDIDs = []) →
      provisionsDevices profile deviceUDIDs = true) ∧
    (profile.provisionsAllDevices = false → deviceUDIDs ≠ [] →
      (provisionsDevices profile deviceUDIDs = true ↔
        ∀ u ∈ deviceUDIDs, u ∈ profile.provisionedDevices)) ∧
    (profile.provisionsAllDevices = false → deviceUDIDs ≠ [] →
      profile.provisionedDevices = [] →
      provisionsDevices profile deviceUDIDs = false) := by
  refine ⟨?_, ?_, ?_⟩
  · intro h
    unfold provisionsDevices
    rcases h with h | h
    · rw [if_pos (by rw [h]; rfl)]
    · rw [if_pos (by rw [h]; simp)]
  · intro hall hne
    unfold provisionsDevices
    rw [if_neg (by simp [hall, List.isEmpty_iff, hne])]
    by_cases hpd : profile.provisionedDevices.isEmpty = true
    · rw [if_pos hpd]
      rw [List.isEmpty_iff] at hpd
      obtain ⟨u, hu⟩ := List.exists_mem_of_ne_nil deviceUDIDs hne
      constructor
      · intro h
        simp at h
      · intro h
        exfalso
        have := h u hu
        rw [hpd] at this
        simp at this
    · rw [if_neg hpd]
      rw [List.all_eq_true]
      constructor
      · intro h u hu
        have := h u hu
        rwa [decide_eq_true_iff] at this
      · intro h u hu
        rw [decide_eq_true_iff]
        exact h u hu
  · intro hall hne hpd
    unfold provisionsDevices
    rw [if_neg (by simp [hall, List.isEmpty_iff, hne])]
    rw [if_pos (by rw [List.isEmpty_iff]; exact hpd)]

theorem provisionsDevices_spec_witness :
    provisionsDevices sampleDeviceProfile [] = true ∧
      provisionsDevices sampleDeviceProfile ["u1"] = true ∧
      provisionsDevices sampleProfile ["u1"] = false :=
  ⟨(provisionsDevices_spec sampleDeviceProfile []).1 (Or.inr rfl),
   ((provisionsDevices_spec sampleDeviceProfile ["u1"]).2.1 (by decide) (by decide)).mpr
     (by decide),
   (provisionsDevices_spec sampleProfile ["u1"]).2.2 (by decide) (by decide) (by decide)⟩

/-- C1: `findProfile` scans the profiles in input order with the exact-match
predicate and returns the first profile satisfying it; only if no profile
satisfies the exact pass does it return the first profile (in input order)
satisfying the superset predicate; and it returns the no-match result `none`
(a normal outcome, not an error) exactly when neither predicate accepts any
profile of the list. -/
theorem findProfile_two_pass_first_match (now : Int) (fmc : MissingContainersFn)
    (localProfiles : List ProvisioningProfileInfoModel) (platform : Platform)
    (distributionType : DistributionType) (bundleID : String)
    (entitlements : Entitlements) (minProfileDaysValid : Int)
    (certSerials : List String) (deviceUDIDs : List String) :
    (∀ p, findProfile now fmc localProfiles platform distributionType bundleID
        entitlements minProfileDaysValid certSerials deviceUDIDs = some p ↔
      (firstSatisfying (fun q => isProfileMatching now fmc q platform distributionType bundleID
          entitlements minProfileDaysValid certSerials deviceUDIDs) localProfiles p ∨
        ((∀ q ∈ localProfiles, isProfileMatching now fmc q platform distributionType bundleID
            entitlements minProfileDaysValid certSerials deviceUDIDs = false) ∧
          firstSatisfying (fun q => isProfileMatchingWithSuperset now fmc q platform
            distributionType bundleID entitlements minProfileDaysValid certSerials deviceUDIDs)
            localProfiles p))) ∧
    (findProfile now fmc localProfiles platform distributionType bundleID
        entitlements minProfileDaysValid certSerials deviceUDIDs = none ↔
      ∀ q ∈ localProfiles,
        isProfileMatching now fmc q platform distributionType bundleID
          entitlements minProfileDaysValid certSerials deviceUDIDs = false ∧
        isProfileMatchingWithSuperset now fmc q platform distributionType bundleID
          entitlements minProfileDaysValid certSerials deviceUDIDs = false) := by
  constructor
  · intro p
    unfold findProfile
    split
    next q hE =>
      constructor
      · intro h
        have hqp : q = p := by injection h
        subst hqp
        exact Or.inl ((find?_iff_firstSatisfying _ _ _).mp hE)
      · rintro (h | ⟨hnoE, hS⟩)
        · have := (find?_iff_firstSatisfying _ _ _).mpr h
          rw [hE] at this
          exact this
        · exfalso
          have hnone : localProfiles.find? (fun profile =>
              isProfileMatching now fmc profile platform distributionType bundleID
                entitlements minProfileDaysValid certSerials deviceUDIDs) = none :=
            List.find?_eq_none.mpr (fun x hx => by simp [hnoE x hx])
          rw [hE] at hnone
          exact Option.noConfusion hnone
    next hE =>
      have hnoE : ∀ x ∈ localProfiles,
          isProfileMatching now fmc x platform distributionType bundleID
            entitlements minProfileDaysValid certSerials deviceUDIDs = false := by
        intro x hx
        have := List.find?_eq_none.mp hE x hx
        simpa using this
      rw [find?_iff_firstSatisfying]
      constructor
      · intro hS
        exact Or.inr ⟨hnoE, hS⟩
      · rintro (h | ⟨_, hS⟩)
        · exfalso
          have := (find?_iff_firstSatisfying _ _ _).mpr h
          rw [hE] at this
          exact Option.noConfusion this
        · exact hS
  · unfold findProfile
    split
    next q hE =>
      constructor
      · intro h
        exact Option.noConfusion h
      · intro h
        exfalso
        have hq := List.find?_some (p := fun profile =>
          isProfileMatching now fmc profile platform distributionType bundleID
            entitlements minProfileDaysValid certSerials deviceUDIDs) (a := q) hE
        have hmem := List.mem_of_find?_eq_some (p := fun profile =>
          isProfileMatching now fmc profile platform distributionType bundleID
            entitlements minProfileDaysValid certSerials deviceUDIDs) (a := q) hE
        have hfalse := (h q hmem).1
        simp only [hfalse] at hq
        exact Bool.noConfusion hq
    next hE =>
      have hnoE : ∀ x ∈ localProfiles,
          isProfileMatching now fmc x platform distributionType bundleID
            entitlements minProfileDaysValid certSerials deviceUDIDs = false := by
        intro x hx
        have := List.find?_eq_none.mp hE x hx
        simpa using this
      rw [List.find?_eq_none]
      constructor
      · intro h q hq
        refine ⟨hnoE q hq, ?_⟩
        have := h q hq
        simpa using this
      · intro h x hx
        simp [(h x hx).2]

theorem findProfile_two_pass_witness :
    findProfile 0 FindMissingContainers [sampleProfile] "ios" "app-store" "b"
      [] 7 [] [] = some sampleProfile :=
  ((findProfile_two_pass_first_match 0 FindMissingContainers [sampleProfile] "ios"
      "app-store" "b" [] 7 [] []).1 sampleProfile).mpr
    (Or.inl ⟨0, by decide, rfl, by decide, by intro b hb; simp at hb⟩)

/-- C2: a profile reporting itself tool-managed is never accepted by the
pass-1 predicate (and hence never returned by pass 1), even when every other
pass-1 filter holds; the pass-2 predicate applies no tool-managed exclusion,
so a tool-managed profile for which all pass-2 filters (active, distribution
type, bundle ID, platform, certificates, superset entitlements, devices) hold
is accepted by it and, as the only local profile, is returned by
`findProfile` through pass 2. -/
theorem xcodeManaged_excluded_from_pass1_only (now : Int) (fmc : MissingContainersFn)
    (profile : ProvisioningProfileInfoModel)
    (localProfiles : List ProvisioningProfileInfoModel) (platform : Platform)
    (distributionType : DistributionType) (bundleID : String)
    (entitlements : Entitlements) (minProfileDaysValid : Int)
    (certSerials : List String) (deviceUDIDs : List String) :
    (profile.isXcodeManaged = true →
      isProfileMatching now fmc profile platform distributionType bundleID
        entitlements minProfileDaysValid certSerials deviceUDIDs = false) ∧
    (∀ p, localProfiles.find? (fun q =>
        isProfileMatching now fmc q platform distributionType bundleID
          entitlements minProfileDaysValid certSerials deviceUDIDs) = some p →
      p.isXcodeManaged = false) ∧
    (profile.isXcodeManaged = true →
      isActive now profile minProfileDaysValid = true →
      hasMatchingDistributionType profile distributionType = true →
      hasMatchingBundleID profile bundleID = true →
      hasMatchingPlatform profile platform = true →
      hasMatchingLocalCertificates profile certSerials = true →
      profileSupportsAppEntitlements fmc profile entitlements = true →
      provisionsDevices profile deviceUDIDs = true →
      isProfileMatchingWithSuperset now fmc profile platform distributionType bundleID
          entitlements minProfileDaysValid certSerials deviceUDIDs = true ∧
        findProfile now fmc [profile] platform distributionType bundleID
          entitlements minProfileDaysValid certSerials deviceUDIDs = some profile) := by
  refine ⟨?_, ?_, ?_⟩
  · intro h
    unfold isProfileMatching
    rw [h]
    simp
  · intro p hp
    have hq := List.find?_some (p := fun q =>
      isProfileMatching now fmc q platform distributionType bundleID
        entitlements minProfileDaysValid certSerials deviceUDIDs) (a := p) hp
    unfold isProfileMatching at hq
    simp only [Bool.and_eq_true] at hq
    have := hq.2
    simpa using this
  · intro hmanaged h1 h2 h3 h4 h5 h6 h7
    have hS : isProfileMatchingWithSuperset now fmc profile platform distributionType bundleID
        entitlements minProfileDaysValid certSerials deviceUDIDs = true := by
      unfold isProfileMatchingWithSuperset
      rw [h1, h2, h3, h4, h5, h6, h7]
      rfl
    have hE : isProfileMatching now fmc profile platform distributionType bundleID
        entitlements minProfileDaysValid certSerials deviceUDIDs = false := by
      unfold isProfileMatching
      rw [hmanaged]
      simp
    refine ⟨hS, ?_⟩
    unfold findProfile
    have hEnone : List.find? (fun q =>
        isProfileMatching now fmc q platform distributionType bundleID
          entitlements minProfileDaysValid certSerials deviceUDIDs) [profile] = none := by
      rw [List.find?_eq_none]
      intro x hx
      rw [List.mem_singleton] at hx
      subst hx
      simp [hE]
    rw [hEnone]
    rw [List.find?_singleton, if_pos]
    exact hS

theorem xcodeManaged_excluded_witness :
    isProfileMatching 0 FindMissingContainers
        { sampleProfile with isXcodeManaged := true } "ios" "app-store" "b" [] 7 [] [] = false ∧
      findProfile 0 FindMissingContainers [{ sampleProfile with isXcodeManaged := true }]
        "ios" "app-store" "b" [] 7 [] [] = some { sampleProfile with isXcodeManaged := true } :=
  ⟨(xcodeManaged_excluded_from_pass1_only 0 FindMissingContainers
      { sampleProfile with isXcodeManaged := true } [] "ios" "app-store" "b" [] 7 [] []).1 rfl,
   ((xcodeManaged_excluded_from_pass1_only 0 FindMissingContainers
      { sampleProfile with isXcodeManaged := true } [] "ios" "app-store" "b" [] 7 [] []).2.2
      rfl (by decide) (by decide) (by decide) (by decide) (by decide) (by decide) (by decide)).2⟩

theorem mem_of_entLookup (e : Entitlements) (k : String) (v : PValue)
    (h : entLookup e k = some v) : (k, v) ∈ e := by
  unfold entLookup at h
  cases hf : e.find? (fun p => decide (p.1 = k)) with
  | none =>
    rw [hf] at h
    exact absurd h (by simp)
  | some q =>
    rw [hf] at h
    have h2 : q.2 = v := by simpa using h
    have hq : q.1 = k := by
      simpa using List.find?_some (p := fun p => decide (p.1 = k)) (a := q) hf
    have hmem := List.mem_of_find?_eq_some (p := fun p => decide (p.1 = k)) (a := q) hf
    have hqkv : q = (k, v) := by
      rw [Prod.ext_iff]
      exact ⟨hq, h2⟩
    rwa [hqkv] at hmem

theorem supportsAll_false_of_bad_key (fmc : MissingContainersFn)
    (profile : ProvisioningProfileInfoModel) (appEntitlements : Entitlements)
    (kv : String × PValue) (hmem : kv ∈ appEntitlements)
    (hfalse : supportsEntitlement fmc appEntitlements profile.entitlements kv = false) :
    profileSupportsAppEntitlements fmc profile appEntitlements = false := by
  rw [Bool.eq_false_iff]
  intro hall
  unfold profileSupportsAppEntitlements at hall
  rw [List.all_eq_true] at hall
  have := hall kv hmem
  rw [hfalse] at this
  exact Bool.noConfusion this

theorem containsAll_false_of_bad_key (fmc : MissingContainersFn)
    (profile : ProvisioningProfileInfoModel) (appEntitlements : Entitlements)
    (kv : String × PValue) (hmem : kv ∈ appEntitlements)
    (hfalse : containsEntitlement fmc appEntitlements profile.entitlements kv = false) :
    containsAllAppEntitlements fmc profile appEntitlements = false := by
  rw [Bool.eq_false_iff]
  intro hall
  unfold containsAllAppEntitlements at hall
  rw [List.all_eq_true] at hall
  have := hall kv hmem
  rw [hfalse] at this
  exact Bool.noConfusion this

/-- C5: superset-mode per-key rules for a non-iCloud key required by the app:
deep-equal values pass; a key entirely absent from the profile fails; a
required boolean `true` against a profile `false` fails; a required boolean
`false` passes whatever value the profile defines (in particular `true`); a
non-boolean required value differing from the profile's value fails; and a
failing required key makes the whole superset match fail. -/
theorem superset_non_icloud_key_rules (fmc : MissingContainersFn)
    (appEntitlements profileEntitlements : Entitlements)
    (profile : ProvisioningProfileInfoModel) (k : String) (v : PValue)
    (hk : k ≠ ICloudIdentifiersEntitlementKey) :
    (entLookup profileEntitlements k = some v →
      supportsEntitlement fmc appEntitlements profileEntitlements (k, v) = true) ∧
    (entLookup profileEntitlements k = none →
      supportsEntitlement fmc appEntitlements profileEntitlements (k, v) = false) ∧
    (entLookup profileEntitlements k = some (.boolV false) →
      supportsEntitlement fmc appEntitlements profileEntitlements (k, .boolV true) = false) ∧
    (∀ pv, entLookup profileEntitlements k = some pv →
      supportsEntitlement fmc appEntitlements profileEntitlements (k, .boolV false) = true) ∧
    (∀ pv, (∀ b, v ≠ .boolV b) → entLookup profileEntitlements k = some pv → pv ≠ v →
      supportsEntitlement fmc appEntitlements profileEntitlements (k, v) = false) ∧
    (∀ kv, kv ∈ appEntitlements →
      supportsEntitlement fmc appEntitlements profile.entitlements kv = false →
      profileSupportsAppEntitlements fmc profile appEntitlements = false) := by
  refine ⟨?_, ?_, ?_, ?_, ?_, ?_⟩
  · intro h
    unfold supportsEntitlement
    rw [if_neg hk, if_pos h]
  · intro h
    unfold supportsEntitlement
    rw [if_neg hk, if_neg (by rw [h]; exact fun hc => Option.noConfusion hc)]
    rw [h]
  · intro h
    unfold supportsEntitlement
    rw [if_neg hk, if_neg (by rw [h]; simp), h]
    rfl
  · intro pv h
    unfold supportsEntitlement
    by_cases heq : entLookup profileEntitlements k = some (.boolV false)
    · rw [if_neg hk, if_pos heq]
    · rw [if_neg hk, if_neg heq, h]
      cases pv with
      | boolV b => cases b <;> simp_all
      | strV s => rfl
      | listV l => rfl
  · intro pv hnotbool h hne
    unfold supportsEntitlement
    rw [if_neg hk, if_neg (by rw [h]; simp [hne]), h]
    cases v with
    | boolV b => exact absurd rfl (hnotbool b)
    | strV s =>
      cases pv <;> simp_all
    | listV l =>
      cases pv <;> simp_all
  · exact fun kv hmem hfalse =>
      supportsAll_false_of_bad_key fmc profile appEntitlements kv hmem hfalse

theorem superset_non_icloud_key_rules_witness :
    supportsEntitlement FindMissingContainers [("k", PValue.strV "x")]
        [("k", PValue.strV "x")] ("k", PValue.strV "x") = true ∧
      supportsEntitlement FindMissingContainers [] [] ("k", PValue.strV "x") = false ∧
      supportsEntitlement FindMissingContainers [] [("k", PValue.boolV false)]
        ("k", PValue.boolV true) = false ∧
      supportsEntitlement FindMissingContainers [] [("k", PValue.boolV true)]
        ("k", PValue.boolV false) = true ∧
      supportsEntitlement FindMissingContainers [] [("k", PValue.strV "y")]
        ("k", PValue.strV "x") = false ∧
      profileSupportsAppEntitlements FindMissingContainers sampleProfile
        [("k", PValue.strV "x")] = false :=
  ⟨(superset_non_icloud_key_rules FindMissingContainers [("k", PValue.strV "x")]
      [("k", PValue.strV "x")] sampleProfile "k" (PValue.strV "x") (by decide)).1 (by decide),
   (superset_non_icloud_key_rules FindMissingContainers [] [] sampleProfile "k"
      (PValue.strV "x") (by decide)).2.1 (by decide),
   (superset_non_icloud_key_rules FindMissingContainers [] [("k", PValue.boolV false)]
      sampleProfile "k" (PValue.strV "x") (by decide)).2.2.1 (by decide),
   (superset_non_icloud_key_rules FindMissingContainers [] [("k", PValue.boolV true)]
      sampleProfile "k" (PValue.strV "x") (by decide)).2.2.2.1 (PValue.boolV true) (by decide),
   (superset_non_icloud_key_rules FindMissingContainers [] [("k", PValue.strV "y")]
      sampleProfile "k" (PValue.strV "x") (by decide)).2.2.2.2.1 (PValue.strV "y")
      (by intro b; exact fun hc => PValue.noConfusion hc) (by decide) (by decide),
   (superset_non_icloud_key_rules FindMissingContainers [("k", PValue.strV "x")] []
      sampleProfile "k" (PValue.strV "x") (by decide)).2.2.2.2.2
      ("k", PValue.strV "x") (by decide) (by decide)⟩

/-- C6: both comparison modes decide the iCloud-container-identifiers key via
the external missing-container computation and never via deep equality: any
collaborator error or non-empty missing set fails both modes whatever the
profile's value for the key, an empty missing set passes the key whatever the
profile's value, and, with the collaborator modelled from the spec, a profile
lacking a required container fails both modes. -/
theorem icloud_key_via_missing_containers (profile : ProvisioningProfileInfoModel)
    (appEntitlements : Entitlements) (v : PValue) :
    (∀ fmc : MissingContainersFn, ∀ e,
      (ICloudIdentifiersEntitlementKey, v) ∈ appEntitlements →
      fmc appEntitlements profile.entitlements = .error e →
      containsAllAppEntitlements fmc profile appEntitlements = false ∧
        profileSupportsAppEntitlements fmc profile appEntitlements = false) ∧
    (∀ fmc : MissingContainersFn, ∀ ms, ms ≠ ([] : List String) →
      (ICloudIdentifiersEntitlementKey, v) ∈ appEntitlements →
      fmc appEntitlements profile.entitlements = .ok ms →
      containsAllAppEntitlements fmc profile appEntitlements = false ∧
        profileSupportsAppEntitlements fmc profile appEntitlements = false) ∧
    (∀ fmc : MissingContainersFn,
      fmc appEntitlements profile.entitlements = .ok [] →
      containsEntitlement fmc appEntitlements profile.entitlements
          (ICloudIdentifiersEntitlementKey, v) = true ∧
        supportsEntitlement fmc appEntitlements profile.entitlements
          (ICloudIdentifiersEntitlementKey, v) = true) ∧
    (∀ appContainers profileContainers : List String, ∀ c,
      entLookup appEntitlements ICloudIdentifiersEntitlementKey =
        some (.listV appContainers) →
      entLookup profile.entitlements ICloudIdentifiersEntitlementKey =
        some (.listV profileContainers) →
      c ∈ appContainers → ¬ c ∈ profileContainers →
      containsAllAppEntitlements FindMissingContainers profile appEntitlements = false ∧
        profileSupportsAppEntitlements FindMissingContainers profile appEntitlements = false) := by
  have hkey : ∀ fmc : MissingContainersFn, ∀ w : PValue,
      (match fmc appEntitlements profile.entitlements with
        | .error _ => false
        | .ok missingContainers => missingContainers.isEmpty) = false →
      (ICloudIdentifiersEntitlementKey, w) ∈ appEntitlements →
      containsAllAppEntitlements fmc profile appEntitlements = false ∧
        profileSupportsAppEntitlements fmc profile appEntitlements = false := by
    intro fmc w hbad hmem
    have hc : containsEntitlement fmc appEntitlements profile.entitlements
        (ICloudIdentifiersEntitlementKey, w) = false := by
      unfold containsEntitlement
      rw [if_pos rfl]
      exact hbad
    have hs : supportsEntitlement fmc appEntitlements profile.entitlements
        (ICloudIdentifiersEntitlementKey, w) = false := by
      unfold supportsEntitlement
      rw [if_pos rfl]
      exact hbad
    exact ⟨containsAll_false_of_bad_key fmc profile appEntitlements _ hmem hc,
      supportsAll_false_of_bad_key fmc profile appEntitlements _ hmem hs⟩
  refine ⟨?_, ?_, ?_, ?_⟩
  · intro fmc e hmem herr
    exact hkey fmc v (by rw [herr]) hmem
  · intro fmc ms hne hmem hok
    refine hkey fmc v ?_ hmem
    rw [hok]
    simpa using hne
  · intro fmc hok
    constructor
    · unfold containsEntitlement
      rw [if_pos rfl, hok]
      rfl
    · unfold supportsEntitlement
      rw [if_pos rfl, hok]
      rfl
  · intro appContainers profileContainers c happ hprof hcin hcout
    have hmem := mem_of_entLookup appEntitlements ICloudIdentifiersEntitlementKey
      (.listV appContainers) happ
    have hfmc : FindMissingContainers appEntitlements profile.entitlements =
        .ok (appContainers.filter (fun c => decide (¬ c ∈ profileContainers))) := by
      unfold FindMissingContainers
      rw [happ, hprof]
    refine hkey FindMissingContainers (.listV appContainers) ?_ hmem
    rw [hfmc]
    have hcmem : c ∈ appContainers.filter (fun c => decide (¬ c ∈ profileContainers)) :=
      List.mem_filter.mpr ⟨hcin, by simpa using hcout⟩
    have := List.ne_nil_of_mem hcmem
    simpa using this

theorem icloud_key_witness :
    containsAllAppEntitlements FindMissingContainers
        { sampleProfile with entitlements :=
            [(ICloudIdentifiersEntitlementKey, PValue.listV ["A"])] }
        [(ICloudIdentifiersEntitlementKey, PValue.listV ["A", "B"])] = false ∧
      profileSupportsAppEntitlements FindMissingContainers
        { sampleProfile with entitlements :=
            [(ICloudIdentifiersEntitlementKey, PValue.listV ["A"])] }
        [(ICloudIdentifiersEntitlementKey, PValue.listV ["A", "B"])] = false :=
  (icloud_key_via_missing_containers
    { sampleProfile with entitlements :=
        [(ICloudIdentifiersEntitlementKey, PValue.listV ["A"])] }
    [(ICloudIdentifiersEntitlementKey, PValue.listV ["A", "B"])]
    (PValue.listV ["A", "B"])).2.2.2 ["A", "B"] ["A"] "B" (by decide) (by decide)
    (by decide) (by decide)

end LocalCodesignAsset

namespace XcArchive

open LocalCodesignAsset

/-- `plistutil.PlistData`: a parsed property list, same representation as
entitlement maps. -/
abbrev PlistData := List (String × PValue)

/-- `plistutil.PlistData.GetString`: the string value for a key together with
a found-and-string flag (`("", false)` when absent or not a string). -/
def plistGetString (data : PlistData) (forKey : String) : String × Bool :=
  match entLookup data forKey with
  | some (.strV s) => (s, true)
  | _ => ("", false)

/-- `filepath.Join` of two components, modelled as slash concatenation. -/
def filepathJoin (a b : String) : String := a ++ "/" ++ b

/-- Go `strings.TrimSuffix`. -/
def trimSuffix (s suffix : String) : String :=
  if s.endsWith suffix then s.dropRight suffix.length else s

/-- Go `filepath.Base`, modelled as the last slash-separated component. -/
def filepathBase (path : String) : String :=
  (path.splitOn "/").getLastD path

/-- The external filesystem / parsing collaborators `ios.go` calls
(`pathutil.IsPathExists`, `filepath.Glob`, `pathutil.EscapeGlobPath`,
`plistutil.NewPlistDataFromFile`,
`profileutil.NewProvisioningProfileInfoFromFile`, and the package helpers
`executableNameFromInfoPlist` / `getEntitlements`, which live outside the
given sources), bundled as one oracle record so the decomposition functions
are ordinary functions of it. -/
structure FS where
  isPathExists : String → Except String Bool
  glob : String → Except String (List String)
  escapeGlobPath : String → String
  newPlistDataFromFile : String → Except String PlistData
  newProvisioningProfileInfoFromFile : String → Except String ProvisioningProfileInfoModel
  executableNameFromInfoPlist : PlistData → String
  getEntitlements : String → String → Except String PlistData

/-- `xcarchive.IosBaseApplication`. -/
structure IosBaseApplication where
  path : String
  infoPlist : PlistData
  entitlements : PlistData
  provisioningProfile : ProvisioningProfileInfoModel
deriving DecidableEq, Repr

/-- `IosBaseApplication.BundleIdentifier`: the `CFBundleIdentifier` string of
the Info.plist (the found flag is discarded). -/
def IosBaseApplication.BundleIdentifier (app : IosBaseApplication) : String :=
  (plistGetString app.infoPlist "CFBundleIdentifier").1

/-- `xcarchive.IosExtension` (embeds the base application). -/
structure IosExtension where
  base : IosBaseApplication
deriving DecidableEq, Repr

/-- `xcarchive.IosWatchApplication`. -/
structure IosWatchApplication where
  base : IosBaseApplication
  extensions : List IosExtension
deriving DecidableEq, Repr

/-- `xcarchive.IosClipApplication`. -/
structure IosClipApplication where
  base : IosBaseApplication
deriving DecidableEq, Repr

/-- `xcarchive.IosApplication`. -/
structure IosApplication where
  base : IosBaseApplication
  watchApplication : Option IosWatchApplication
  clipApplication : Option IosClipApplication
  extensions : List IosExtension
deriving DecidableEq, Repr

/-- `xcarchive.IosArchive`. -/
structure IosArchive where
  path : String
  infoPlist : PlistData
  application : IosApplication
deriving DecidableEq, Repr

/-- `NewIosBaseApplication`: requires Info.plist and embedded.mobileprovision
to exist and parse and the entitlement extraction to succeed; any failure
aborts with the corresponding error. -/
def NewIosBaseApplication (fs : FS) (path : String) : Except String IosBaseApplication :=
  let infoPlistPath := filepathJoin path "Info.plist"
  match fs.isPathExists infoPlistPath with
  | .error e =>
    .error ("failed to check if Info.plist exists at: " ++ infoPlistPath ++ ", error: " ++ e)
  | .ok false => .error ("Info.plist not exists at: " ++ infoPlistPath)
  | .ok true =>
    match fs.newPlistDataFromFile infoPlistPath with
    | .error e => .error e
    | .ok infoPlist =>
      let provisioningProfilePath := filepathJoin path "embedded.mobileprovision"
      match fs.isPathExists provisioningProfilePath with
      | .error e =>
        .error ("failed to check if profile exists at: " ++ provisioningProfilePath
          ++ ", error: " ++ e)
      | .ok false => .error ("profile not exists at: " ++ provisioningProfilePath)
      | .ok true =>
        match fs.newProvisioningProfileInfoFromFile provisioningProfilePath with
        | .error e => .error e
        | .ok provisioningProfile =>
          let executable := fs.executableNameFromInfoPlist infoPlist
          match fs.getEntitlements path executable with
          | .error e => .error e
          | .ok entitlements =>
            .ok { path := path, infoPlist := infoPlist, entitlements := entitlements,
                  provisioningProfile := provisioningProfile }

/-- `NewIosExtension`. -/
def NewIosExtension (fs : FS) (path : String) : Except String IosExtension :=
  match NewIosBaseApplication fs path with
  | .error e => .error e
  | .ok baseApp => .ok { base := baseApp }

/-- `NewIosWatchApplication`: the base application plus its `PlugIns/*.appex`
extensions built in directory-search order; zero matches is valid. -/
def NewIosWatchApplication (fs : FS) (path : String) : Except String IosWatchApplication :=
  match NewIosBaseApplication fs path with
  | .error e => .error e
  | .ok baseApp =>
    let pattern := filepathJoin (fs.escapeGlobPath path) "PlugIns/*.appex"
    match fs.glob pattern with
    | .error e =>
      .error ("failed to search for watch application's extensions using pattern: "
        ++ pattern ++ ", error: " ++ e)
    | .ok pths =>
      match pths.mapM (NewIosExtension fs) with
      | .error e => .error e
      | .ok extensions => .ok { base := baseApp, extensions := extensions }

/-- `NewIosClipApplication`. -/
def NewIosClipApplication (fs : FS) (path : String) : Except String IosClipApplication :=
  match NewIosBaseApplication fs path with
  | .error e => .error e
  | .ok baseApp => .ok { base := baseApp }

/-- `NewIosApplication`: the base application, at most one watch application
(`Watch/*.app`, first match), at most one clip (`AppClips/*.app`, first
match), and the `PlugIns/*.appex` extensions; absence of any optional
component is not an error. -/
def NewIosApplication (fs : FS) (path : String) : Except String IosApplication :=
  match NewIosBaseApplication fs path with
  | .error e => .error e
  | .ok baseApp =>
    match fs.glob (filepathJoin (fs.escapeGlobPath path) "Watch/*.app") with
    | .error e => .error e
    | .ok watchPths =>
      let watchResult : Except String (Option IosWatchApplication) :=
        match watchPths with
        | [] => .ok none
        | watchPath :: _ =>
          match NewIosWatchApplication fs watchPath with
          | .error e => .error e
          | .ok app => .ok (some app)
      match watchResult with
      | .error e => .error e
      | .ok watchApp =>
        match fs.glob (filepathJoin (fs.escapeGlobPath path) "AppClips/*.app") with
        | .error e => .error e
        | .ok clipPths =>
          let clipResult : Except String (Option IosClipApplication) :=
            match clipPths with
            | [] => .ok none
            | clipPath :: _ =>
              match NewIosClipApplication fs clipPath with
              | .error e => .error e
              | .ok app => .ok (some app)
          match clipResult with
          | .error e => .error e
          | .ok clipApp =>
            let pattern := filepathJoin (fs.escapeGlobPath path) "PlugIns/*.appex"
            match fs.glob pattern with
            | .error e =>
              .error ("failed to search for watch application's extensions using pattern: "
                ++ pattern ++ ", error: " ++ e)
            | .ok pths =>
              match pths.mapM (NewIosExtension fs) with
              | .error e => .error e
              | .ok extensions =>
                .ok { base := baseApp, watchApplication := watchApp,
                      clipApplication := clipApp, extensions := extensions }

/-- Go map insertion `m[k] = v`: update the existing entry in place, append a
new entry otherwise (value semantics of `map[string]V`, iteration modelled in
insertion order). -/
def goInsert {V : Type} (m : List (String × V)) (k : String) (v : V) : List (String × V) :=
  if m.any (fun p => decide (p.1 = k)) then
    m.map (fun p => if p.1 = k then (k, v) else p)
  else
    m ++ [(k, v)]

/-- Go map lookup `m[k]`. -/
def goLookup {V : Type} (m : List (String × V)) (k : String) : Option V :=
  (m.find? (fun p => decide (p.1 = k))).map (fun p => p.2)

/-- The zero value `profileutil.ProvisioningProfileInfoModel{}`. -/
def emptyProfileInfo : ProvisioningProfileInfoModel :=
  { bundleID := "", exportType := "", profileType := "", expirationDate := 0,
    teamID := "", developerCertificates := [], provisionedDevices := [],
    provisionsAllDevices := false, isXcodeManaged := false, entitlements := [] }

/-- `extractFrameworkInfo`: bundle ID and entitlements of a framework that
carries an embedded provisioning profile; every precondition failure yields
the empty bundle ID, and a failing entitlement extraction degrades to empty
entitlements while keeping the bundle ID. -/
def extractFrameworkInfo (fs : FS) (frameworkPath : String) : String × PlistData :=
  let provisioningProfilePath := filepathJoin frameworkPath "embedded.mobileprovision"
  match fs.isPathExists provisioningProfilePath with
  | .error _ => ("", [])
  | .ok false => ("", [])
  | .ok true =>
    let infoPlistPath := filepathJoin frameworkPath "Info.plist"
    match fs.isPathExists infoPlistPath with
    | .error _ => ("", [])
    | .ok false => ("", [])
    | .ok true =>
      match fs.newPlistDataFromFile infoPlistPath with
      | .error _ => ("", [])
      | .ok infoPlist =>
        match plistGetString infoPlist "CFBundleIdentifier" with
        | (_, false) => ("", [])
        | (bundleID, true) =>
          if bundleID = "" then ("", [])
          else
            let frameworkName := trimSuffix (filepathBase frameworkPath) ".framework"
            match fs.getEntitlements frameworkPath frameworkName with
            | .error _ => (bundleID, [])
            | .ok entitlements => (bundleID, entitlements)

/-- `getFrameworkBundleIDEntitlements`: scan `Frameworks/*.framework` of the
main application; any existence-check or glob error just yields the empty
map. -/
def getFrameworkBundleIDEntitlements (fs : FS) (archive : IosArchive) :
    List (String × PlistData) :=
  let frameworksPath := filepathJoin archive.application.base.path "Frameworks"
  match fs.isPathExists frameworksPath with
  | .ok true =>
    match fs.glob (filepathJoin (fs.escapeGlobPath frameworksPath) "*.framework") with
    | .ok frameworks =>
      frameworks.foldl (fun m frameworkPath =>
        let r := extractFrameworkInfo fs frameworkPath
        if r.1 ≠ "" then goInsert m r.1 r.2 else m) []
    | .error _ => []
  | _ => []

/-- `extractFrameworkProfileInfo`: bundle ID and provisioning profile of a
framework; every failure yields the empty bundle ID with the zero profile. -/
def extractFrameworkProfileInfo (fs : FS) (frameworkPath : String) :
    String × ProvisioningProfileInfoModel :=
  let provisioningProfilePath := filepathJoin frameworkPath "embedded.mobileprovision"
  match fs.isPathExists provisioningProfilePath with
  | .error _ => ("", emptyProfileInfo)
  | .ok false => ("", emptyProfileInfo)
  | .ok true =>
    let infoPlistPath := filepathJoin frameworkPath "Info.plist"
    match fs.isPathExists infoPlistPath with
    | .error _ => ("", emptyProfileInfo)
    | .ok false => ("", emptyProfileInfo)
    | .ok true =>
      match fs.newPlistDataFromFile infoPlistPath with
      | .error _ => ("", emptyProfileInfo)
      | .ok infoPlist =>
        match plistGetString infoPlist "CFBundleIdentifier" with
        | (_, false) => ("", emptyProfileInfo)
        | (bundleID, true) =>
          if bundleID = "" then ("", emptyProfileInfo)
          else
            match fs.newProvisioningProfileInfoFromFile provisioningProfilePath with
            | .error _ => ("", emptyProfileInfo)
            | .ok profile => (bundleID, profile)

/-- `getFrameworkBundleIDProfiles`: scan `Frameworks/*.framework` of the main
application for frameworks with provisioning profiles. -/
def getFrameworkBundleIDProfiles (fs : FS) (archive : IosArchive) :
    List (String × ProvisioningProfileInfoModel) :=
  let frameworksPath := filepathJoin archive.application.base.path "Frameworks"
  match fs.isPathExists frameworksPath with
  | .ok true =>
    match fs.glob (filepathJoin (fs.escapeGlobPath frameworksPath) "*.framework") with
    | .ok frameworks =>
      frameworks.foldl (fun m frameworkPath =>
        let r := extractFrameworkProfileInfo fs frameworkPath
        if r.1 ≠ "" then goInsert m r.1 r.2 else m) []
    | .error _ => []
  | _ => []

/-- `IosArchive.BundleIDEntitlementsMap`: bundle ID → entitlements over the
primary application, its extensions, the watch application and its
extensions, the clip application, and the qualifying frameworks, in that
insertion order. -/
def BundleIDEntitlementsMap (fs : FS) (archive : IosArchive) : List (String × PlistData) :=
  let m0 : List (String × PlistData) := []
  let m1 := goInsert m0 archive.application.base.BundleIdentifier
    archive.application.base.entitlements
  let m2 := archive.application.extensions.foldl (fun m plugin =>
    goInsert m plugin.base.BundleIdentifier plugin.base.entitlements) m1
  let m3 := match archive.application.watchApplication with
    | none => m2
    | some watchApplication =>
      let mw := goInsert m2 watchApplication.base.BundleIdentifier
        watchApplication.base.entitlements
      watchApplication.extensions.foldl (fun m plugin =>
        goInsert m plugin.base.BundleIdentifier plugin.base.entitlements) mw
  let m4 := match archive.application.clipApplication with
    | none => m3
    | some clipApplication =>
      goInsert m3 clipApplication.base.BundleIdentifier clipApplication.base.entitlements
  let frameworkEntitlements := getFrameworkBundleIDEntitlements fs archive
  frameworkEntitlements.foldl (fun m kv => goInsert m kv.1 kv.2) m4

/-- `IosArchive.BundleIDProfileInfoMap`: bundle ID → provisioning profile
over the same identities in the same insertion order. -/
def BundleIDProfileInfoMap (fs : FS) (archive : IosArchive) :
    List (String × ProvisioningProfileInfoModel) :=
  let m0 : List (String × ProvisioningProfileInfoModel) := []
  let m1 := goInsert m0 archive.application.base.BundleIdentifier
    archive.application.base.provisioningProfile
  let m2 := archive.application.extensions.foldl (fun m plugin =>
    goInsert m plugin.base.BundleIdentifier plugin.base.provisioningProfile) m1
  let m3 := match archive.application.watchApplication with
    | none => m2
    | some watchApplication =>
      let mw := goInsert m2 watchApplication.base.BundleIdentifier
        watchApplication.base.provisioningProfile
      watchApplication.extensions.foldl (fun m plugin =>
        goInsert m plugin.base.BundleIdentifier plugin.base.provisioningProfile) mw
  let m4 := match archive.application.clipApplication with
    | none => m3
    | some clipApplication =>
      goInsert m3 clipApplication.base.BundleIdentifier
        clipApplication.base.provisioningProfile
  let frameworkProfiles := getFrameworkBundleIDProfiles fs archive
  frameworkProfiles.foldl (fun m kv => goInsert m kv.1 kv.2) m4

/-- `IosArchive.TeamID`: the team identifier of the first enumerated entry of
the profile map, or the "team id not found" error on an empty map. -/
def TeamID (fs : FS) (archive : IosArchive) : Except String String :=
  match BundleIDProfileInfoMap fs archive with
  | [] => .error "team id not found"
  | kv :: _ => .ok kv.2.teamID

theorem goLookup_nil {V : Type} (k : String) : goLookup ([] : List (String × V)) k = none :=
  rfl

theorem goLookup_cons {V : Type} (p : String × V) (t : List (String × V)) (k : String) :
    goLookup (p :: t) k = if p.1 = k then some p.2 else goLookup t k := by
  unfold goLookup
  by_cases h : p.1 = k
  · rw [List.find?_cons_of_pos _ (by simpa using h), if_pos h]
    rfl
  · rw [List.find?_cons_of_neg _ (by simpa using h), if_neg h]

theorem goLookup_map_update {V : Type} (t : List (String × V)) (k k' : String) (v : V)
    (h : k' ≠ k) :
    goLookup (t.map (fun p => if p.1 = k then (k, v) else p)) k' = goLookup t k' := by
  induction t with
  | nil => rfl
  | cons p t ih =>
    rw [List.map_cons]
    by_cases hpk : p.1 = k
    · rw [if_pos hpk, goLookup_cons, goLookup_cons,
        if_neg (show ¬ ((k, v).1 = k') from Ne.symm h),
        if_neg (show ¬ (p.1 = k') from by rw [hpk]; exact Ne.symm h)]
      exact ih
    · rw [if_neg hpk, goLookup_cons, goLookup_cons]
      by_cases hpk' : p.1 = k'
      · rw [if_pos hpk', if_pos hpk']
      · rw [if_neg hpk', if_neg hpk']
        exact ih

theorem goLookup_map_update_hit {V : Type} (m : List (String × V)) (k : String) (v : V)
    (h : m.any (fun q => decide (q.1 = k)) = true) :
    goLookup (m.map (fun p => if p.1 = k then (k, v) else p)) k = some v := by
  induction m with
  | nil => simp at h
  | cons p t ih =>
    rw [List.map_cons]
    by_cases hpk : p.1 = k
    · rw [if_pos hpk, goLookup_cons, if_pos (show (k, v).1 = k from rfl)]
    · rw [if_neg hpk, goLookup_cons, if_neg hpk]
      apply ih
      rw [List.any_cons] at h
      simpa [hpk] using h

theorem goLookup_append {V : Type} (m1 m2 : List (String × V)) (k : String) :
    goLookup (m1 ++ m2) k = (goLookup m1 k).or (goLookup m2 k) := by
  induction m1 with
  | nil => rw [List.nil_append, goLookup_nil, Option.none_or]
  | cons p t ih =>
    rw [List.cons_append, goLookup_cons, goLookup_cons]
    by_cases h : p.1 = k
    · rw [if_pos h, if_pos h]
      rfl
    · rw [if_neg h, if_neg h]
      exact ih

theorem goLookup_eq_none_of_not_any {V : Type} (m : List (String × V)) (k : String)
    (h : m.any (fun q => decide (q.1 = k)) = false) : goLookup m k = none := by
  unfold goLookup
  rw [List.find?_eq_none.mpr]
  · rfl
  · intro x hx
    have := List.any_eq_false.mp h x hx
    simpa using this

theorem goLookup_goInsert {V : Type} (m : List (String × V)) (k k' : String) (v : V) :
    goLookup (goInsert m k v) k' = if k' = k then some v else goLookup m k' := by
  unfold goInsert
  by_cases hany : m.any (fun q => decide (q.1 = k)) = true
  · rw [if_pos hany]
    by_cases hk' : k' = k
    · subst hk'
      rw [if_pos rfl]
      exact goLookup_map_update_hit m k' v hany
    · rw [if_neg hk']
      exact goLookup_map_update m k k' v hk'
  · rw [if_neg hany, goLookup_append]
    have hnone : goLookup m k = none :=
      goLookup_eq_none_of_not_any m k (Bool.eq_false_iff.mpr hany)
    by_cases hk' : k' = k
    · subst hk'
      rw [if_pos rfl, hnone, Option.none_or, goLookup_cons,
        if_pos (show (k', v).1 = k' from rfl)]
    · rw [if_neg hk', goLookup_cons, if_neg (show ¬ ((k, v).1 = k') from Ne.symm hk'),
        goLookup_nil, Option.or_none]

theorem goInsert_ne_nil {V : Type} (m : List (String × V)) (k : String) (v : V) :
    goInsert m k v ≠ [] := by
  unfold goInsert
  split
  · next hany =>
    intro h
    rw [List.map_eq_nil_iff] at h
    subst h
    simp at hany
  · intro h
    rcases List.append_eq_nil.mp h with ⟨_, h2⟩
    exact List.noConfusion h2

theorem foldl_insert_ne_nil {V : Type} (seq : List (String × V)) (m : List (String × V))
    (h : m ≠ []) : seq.foldl (fun acc kv => goInsert acc kv.1 kv.2) m ≠ [] := by
  induction seq generalizing m with
  | nil => exact h
  | cons x xs ih => exact ih (goInsert m x.1 x.2) (goInsert_ne_nil m x.1 x.2)

theorem goLookup_foldl_insert {V : Type} (seq : List (String × V)) (k : String) :
    goLookup (seq.foldl (fun acc kv => goInsert acc kv.1 kv.2) []) k =
      (seq.reverse.find? (fun kv => decide (kv.1 = k))).map (fun kv => kv.2) := by
  induction seq using List.reverseRecOn with
  | nil => rfl
  | append_singleton xs x ih =>
    rw [List.foldl_append, List.foldl_cons, List.foldl_nil, goLookup_goInsert,
      List.reverse_append, List.reverse_singleton, List.singleton_append, List.find?_cons]
    by_cases h : k = x.1
    · rw [if_pos h]
      have hd : decide (x.1 = k) = true := by simp [h.symm]
      rw [hd]
      rfl
    · rw [if_neg h]
      have hd : decide (x.1 = k) = false := by
        simp only [decide_eq_false_iff_not]
        exact fun hc => h hc.symm
      rw [hd]
      exact ih

/-- The identities discovered by the entitlements aggregation, as
(bundle ID, entitlements) pairs in insertion order: the primary application,
each of its extensions, the watch application and each of its extensions when
present, the clip application when present, and every qualifying framework. -/
def discoveredEntitlementEntries (fs : FS) (archive : IosArchive) :
    List (String × PlistData) :=
  (archive.application.base.BundleIdentifier, archive.application.base.entitlements) ::
    (archive.application.extensions.map (fun plugin =>
        (plugin.base.BundleIdentifier, plugin.base.entitlements)) ++
      (match archive.application.watchApplication with
        | none => []
        | some watchApplication =>
          (watchApplication.base.BundleIdentifier, watchApplication.base.entitlements) ::
            watchApplication.extensions.map (fun plugin =>
              (plugin.base.BundleIdentifier, plugin.base.entitlements))) ++
      (match archive.application.clipApplication with
        | none => []
        | some clipApplication =>
          [(clipApplication.base.BundleIdentifier, clipApplication.base.entitlements)]) ++
      getFrameworkBundleIDEntitlements fs archive)

/-- The identities discovered by the profile aggregation, as
(bundle ID, profile) pairs in the same insertion order. -/
def discoveredProfileEntries (fs : FS) (archive : IosArchive) :
    List (String × ProvisioningProfileInfoModel) :=
  (archive.application.base.BundleIdentifier,
      archive.application.base.provisioningProfile) ::
    (archive.application.extensions.map (fun plugin =>
        (plugin.base.BundleIdentifier, plugin.base.provisioningProfile)) ++
      (match archive.application.watchApplication with
        | none => []
        | some watchApplication =>
          (watchApplication.base.BundleIdentifier,
              watchApplication.base.provisioningProfile) ::
            watchApplication.extensions.map (fun plugin =>
              (plugin.base.BundleIdentifier, plugin.base.provisioningProfile))) ++
      (match archive.application.clipApplication with
        | none => []
        | some clipApplication =>
          [(clipApplication.base.BundleIdentifier,
            clipApplication.base.provisioningProfile)]) ++
      getFrameworkBundleIDProfiles fs archive)

theorem entMap_eq_foldl (fs : FS) (archive : IosArchive) :
    BundleIDEntitlementsMap fs archive =
      (discoveredEntitlementEntries fs archive).foldl
        (fun acc kv => goInsert acc kv.1 kv.2) [] := by
  unfold BundleIDEntitlementsMap discoveredEntitlementEntries
  cases archive.application.watchApplication with
  | none =>
    cases archive.application.clipApplication with
    | none => simp [List.foldl_append, List.foldl_map]
    | some clipApplication => simp [List.foldl_append, List.foldl_map]
  | some watchApplication =>
    cases archive.application.clipApplication with
    | none => simp [List.foldl_append, List.foldl_map]
    | some clipApplication => simp [List.foldl_append, List.foldl_map]

theorem profMap_eq_foldl (fs : FS) (archive : IosArchive) :
    BundleIDProfileInfoMap fs archive =
      (discoveredProfileEntries fs archive).foldl
        (fun acc kv => goInsert acc kv.1 kv.2) [] := by
  unfold BundleIDProfileInfoMap discoveredProfileEntries
  cases archive.application.watchApplication with
  | none =>
    cases archive.application.clipApplication with
    | none => simp [List.foldl_append, List.foldl_map]
    | some clipApplication => simp [List.foldl_append, List.foldl_map]
  | some watchApplication =>
    cases archive.application.clipApplication with
    | none => simp [List.foldl_append, List.foldl_map]
    | some clipApplication => simp [List.foldl_append, List.foldl_map]

/-- C8: an error from the base-application construction propagates out of
`NewIosApplication` unchanged; zero glob matches for the optional watch
application, app clip and extensions are not errors and yield `none`/empty
fields; a failure extracting a qualifying framework's entitlements degrades
to the bundle ID with empty entitlements instead of aborting; a missing
mandatory Info.plist or embedded profile aborts `NewIosBaseApplication` with
the corresponding error; and zero framework matches yield the empty framework
map. -/
theorem optional_absent_ok_mandatory_aborts (fs : FS) :
    (∀ path e, NewIosBaseApplication fs path = .error e →
      NewIosApplication fs path = .error e) ∧
    (∀ path base, NewIosBaseApplication fs path = .ok base →
      fs.glob (filepathJoin (fs.escapeGlobPath path) "Watch/*.app") = .ok [] →
      fs.glob (filepathJoin (fs.escapeGlobPath path) "AppClips/*.app") = .ok [] →
      fs.glob (filepathJoin (fs.escapeGlobPath path) "PlugIns/*.appex") = .ok [] →
      NewIosApplication fs path = .ok ⟨base, none, none, []⟩) ∧
    (∀ frameworkPath infoPlist bundleID e,
      fs.isPathExists (filepathJoin frameworkPath "embedded.mobileprovision") = .ok true →
      fs.isPathExists (filepathJoin frameworkPath "Info.plist") = .ok true →
      fs.newPlistDataFromFile (filepathJoin frameworkPath "Info.plist") = .ok infoPlist →
      plistGetString infoPlist "CFBundleIdentifier" = (bundleID, true) →
      bundleID ≠ "" →
      fs.getEntitlements frameworkPath
        (trimSuffix (filepathBase frameworkPath) ".framework") = .error e →
      extractFrameworkInfo fs frameworkPath = (bundleID, [])) ∧
    (∀ path, fs.isPathExists (filepathJoin path "Info.plist") = .ok false →
      NewIosBaseApplication fs path =
        .error ("Info.plist not exists at: " ++ filepathJoin path "Info.plist")) ∧
    (∀ path infoPlist,
      fs.isPathExists (filepathJoin path "Info.plist") = .ok true →
      fs.newPlistDataFromFile (filepathJoin path "Info.plist") = .ok infoPlist →
      fs.isPathExists (filepathJoin path "embedded.mobileprovision") = .ok false →
      NewIosBaseApplication fs path =
        .error ("profile not exists at: " ++ filepathJoin path "embedded.mobileprovision")) ∧
    (∀ archive : IosArchive,
      fs.isPathExists (filepathJoin archive.application.base.path "Frameworks") = .ok true →
      fs.glob (filepathJoin (fs.escapeGlobPath
          (filepathJoin archive.application.base.path "Frameworks")) "*.framework") =
        .ok [] →
      getFrameworkBundleIDEntitlements fs archive = []) := by
  refine ⟨?_, ?_, ?_, ?_, ?_, ?_⟩
  · intro path e h
    unfold NewIosApplication
    rw [h]
  · intro path base hbase hwatch hclip hplug
    unfold NewIosApplication
    simp only [hbase, hwatch, hclip, hplug, List.mapM_nil]
    rfl
  · intro frameworkPath infoPlist bundleID e hprov hinfo hplist hstr hbid hent
    unfold extractFrameworkInfo
    simp only [hprov, hinfo, hplist, hstr]
    rw [if_neg hbid]
    simp only [hent]
  · intro path h
    unfold NewIosBaseApplication
    simp only [h]
  · intro path infoPlist h1 h2 h3
    unfold NewIosBaseApplication
    simp only [h1, h2, h3]
  · intro archive h1 h2
    unfold getFrameworkBundleIDEntitlements
    simp only [h1, h2, List.foldl_nil]

/-- Concrete filesystem oracle for witnesses: every path exists, every glob
is empty, every parse succeeds with empty data. -/
def witnessBaseFS : FS :=
  { isPathExists := fun _ => .ok true,
    glob := fun _ => .ok [],
    escapeGlobPath := fun s => s,
    newPlistDataFromFile := fun _ => .ok [],
    newProvisioningProfileInfoFromFile := fun _ => .ok emptyProfileInfo,
    executableNameFromInfoPlist := fun _ => "",
    getEntitlements := fun _ _ => .ok [] }

/-- Concrete filesystem oracle for witnesses: like `witnessBaseFS` but the
Info.plist carries a bundle identifier and entitlement extraction fails. -/
def witnessFrameworkFS : FS :=
  { witnessBaseFS with
    newPlistDataFromFile := fun _ => .ok [("CFBundleIdentifier", PValue.strV "fw")],
    getEntitlements := fun _ _ => .error "fail" }

/-- Concrete filesystem oracle for witnesses: no path exists. -/
def witnessMissingFS : FS :=
  { witnessBaseFS with isPathExists := fun _ => .ok false }

theorem optional_absent_ok_witness :
    NewIosApplication witnessBaseFS "A" =
        .ok ⟨⟨"A", [], [], emptyProfileInfo⟩, none, none, []⟩ ∧
      extractFrameworkInfo witnessFrameworkFS "F.framework" = ("fw", []) ∧
      NewIosBaseApplication witnessMissingFS "A" =
        .error ("Info.plist not exists at: " ++ filepathJoin "A" "Info.plist") :=
  ⟨(optional_absent_ok_mandatory_aborts witnessBaseFS).2.1 "A"
      ⟨"A", [], [], emptyProfileInfo⟩ rfl rfl rfl rfl,
   (optional_absent_ok_mandatory_aborts witnessFrameworkFS).2.2.1 "F.framework"
      [("CFBundleIdentifier", PValue.strV "fw")] "fw" "fail" rfl rfl rfl rfl
      (by decide) rfl,
   (optional_absent_ok_mandatory_aborts witnessMissingFS).2.2.2.1 "A" rfl⟩

/-- C9: both aggregate maps contain an entry keyed by bundle ID for every
discovered identity (primary application, each of its extensions, watch
application and each of its extensions when present, clip application when
present, every qualifying framework), and the value stored under any key is
the value of the last identity in insertion order carrying that bundle ID: on
a shared bundle ID the later-inserted entry silently overwrites the earlier
one. -/
theorem bundleID_maps_cover_and_overwrite (fs : FS) (archive : IosArchive) :
    (∀ k, goLookup (BundleIDEntitlementsMap fs archive) k =
      ((discoveredEntitlementEntries fs archive).reverse.find?
        (fun kv => decide (kv.1 = k))).map (fun kv => kv.2)) ∧
    (∀ kv ∈ discoveredEntitlementEntries fs archive,
      (goLookup (BundleIDEntitlementsMap fs archive) kv.1).isSome = true) ∧
    (∀ k, goLookup (BundleIDProfileInfoMap fs archive) k =
      ((discoveredProfileEntries fs archive).reverse.find?
        (fun kv => decide (kv.1 = k))).map (fun kv => kv.2)) ∧
    (∀ kv ∈ discoveredProfileEntries fs archive,
      (goLookup (BundleIDProfileInfoMap fs archive) kv.1).isSome = true) := by
  have h1 : ∀ k, goLookup (BundleIDEntitlementsMap fs archive) k =
      ((discoveredEntitlementEntries fs archive).reverse.find?
        (fun kv => decide (kv.1 = k))).map (fun kv => kv.2) := by
    intro k
    rw [entMap_eq_foldl]
    exact goLookup_foldl_insert (discoveredEntitlementEntries fs archive) k
  have h3 : ∀ k, goLookup (BundleIDProfileInfoMap fs archive) k =
      ((discoveredProfileEntries fs archive).reverse.find?
        (fun kv => decide (kv.1 = k))).map (fun kv => kv.2) := by
    intro k
    rw [profMap_eq_foldl]
    exact goLookup_foldl_insert (discoveredProfileEntries fs archive) k
  refine ⟨h1, ?_, h3, ?_⟩
  · intro kv hkv
    rw [h1 kv.1]
    have hsome : ((discoveredEntitlementEntries fs archive).reverse.find?
        (fun q => decide (q.1 = kv.1))).isSome = true :=
      List.find?_isSome.mpr ⟨kv, List.mem_reverse.mpr hkv, by simp⟩
    cases hf : (discoveredEntitlementEntries fs archive).reverse.find?
        (fun q => decide (q.1 = kv.1)) with
    | none =>
      rw [hf] at hsome
      simp at hsome
    | some q => rfl
  · intro kv hkv
    rw [h3 kv.1]
    have hsome : ((discoveredProfileEntries fs archive).reverse.find?
        (fun q => decide (q.1 = kv.1))).isSome = true :=
      List.find?_isSome.mpr ⟨kv, List.mem_reverse.mpr hkv, by simp⟩
    cases hf : (discoveredProfileEntries fs archive).reverse.find?
        (fun q => decide (q.1 = kv.1)) with
    | none =>
      rw [hf] at hsome
      simp at hsome
    | some q => rfl

/-- Concrete archive for witnesses: a primary application with bundle ID
`com.acme.app` and no optional components. -/
def sampleArchive : IosArchive :=
  { path := "A", infoPlist := [],
    application :=
      { base :=
          { path := "A",
            infoPlist := [("CFBundleIdentifier", PValue.strV "com.acme.app")],
            entitlements := [],
            provisioningProfile := { emptyProfileInfo with teamID := "T" } },
        watchApplication := none, clipApplication := none, extensions := [] } }

theorem bundleID_maps_cover_witness :
    (goLookup (BundleIDEntitlementsMap witnessBaseFS sampleArchive) "com.acme.app").isSome
      = true ∧
    goLookup (BundleIDEntitlementsMap witnessBaseFS sampleArchive) "com.acme.app" =
      some [] :=
  ⟨(bundleID_maps_cover_and_overwrite witnessBaseFS sampleArchive).2.1
      ("com.acme.app", []) (by decide),
   by
    rw [(bundleID_maps_cover_and_overwrite witnessBaseFS sampleArchive).1 "com.acme.app"]
    decide⟩

/-- C10: for every filesystem oracle and archive value (in particular any
archive successfully constructed by the archive constructor), the profile map
is non-empty — it always holds at least the primary application's entry — so
`TeamID` never reaches its "team id not found" error branch and returns the
team identifier of some entry of the map. -/
theorem teamID_never_fails (fs : FS) (archive : IosArchive) :
    BundleIDProfileInfoMap fs archive ≠ [] ∧
      ∃ kv, kv ∈ BundleIDProfileInfoMap fs archive ∧
        TeamID fs archive = .ok kv.2.teamID := by
  have hne : BundleIDProfileInfoMap fs archive ≠ [] := by
    rw [profMap_eq_foldl]
    unfold discoveredProfileEntries
    rw [List.foldl_cons]
    exact foldl_insert_ne_nil _ _ (goInsert_ne_nil [] _ _)
  refine ⟨hne, ?_⟩
  cases hm : BundleIDProfileInfoMap fs archive with
  | nil => exact absurd hm hne
  | cons kv rest =>
    refine ⟨kv, List.mem_cons_self kv rest, ?_⟩
    unfold TeamID
    rw [hm]

theorem teamID_never_fails_witness :
    BundleIDProfileInfoMap witnessBaseFS sampleArchive ≠ [] ∧
      ∃ kv, kv ∈ BundleIDProfileInfoMap witnessBaseFS sampleArchive ∧
        TeamID witnessBaseFS sampleArchive = .ok kv.2.teamID :=
  teamID_never_fails witnessBaseFS sampleArchive

end XcArchive
